import Mathlib

/-!
Shallow embedding of the crisis-mesh-relay core: the connection lifecycle,
peer discovery, and flood-routing engine of the MeshNetwork /
ConnectionManager / Index components.  Stateful component code is embedded
as pure step functions over explicit state records; event-handler callbacks
become constructors of an event type, and their observable side effects
(sends, local deliveries, observer notifications, connect requests) become
an explicit action list returned by each step.  Timestamps are naturals
(milliseconds); timer delays are rationals (milliseconds).
-/

namespace CrisisMesh

/-- Urgency levels of an emergency message (MeshNetwork.tsx, EmergencyMessage). -/
inductive Urgency
  | HIGH
  | MEDIUM
  | LOW
deriving DecidableEq, Repr

/-- A latitude/longitude pair (`location?: { lat, lng }`).  The coordinates are
only carried, never computed with, so rationals stand in for the floats. -/
structure GeoLocation where
  lat : ℚ
  lng : ℚ
deriving DecidableEq, Repr

/-- The EmergencyMessage record of MeshNetwork.tsx.  `timestamp` is the
serialized instant (`new Date(data.timestamp)` reconstruction is the identity
in this model); `route` is the optional ordered list of traversed peer ids. -/
structure EmergencyMessage where
  id : String
  message : String
  urgency : Urgency
  timestamp : Nat
  location : Option GeoLocation := none
  senderId : String
  route : Option (List String) := none
deriving DecidableEq, Repr

/-- A datum arriving on a connection, before the
`data && typeof data === 'object' && data.message` guard:
null, a non-object primitive, or an object.  An object with
`message = ""` models an object whose `message` field is falsy. -/
inductive WireData
  | nullDatum
  | primitive (s : String)
  | object (m : EmergencyMessage)
deriving DecidableEq, Repr

/-- `data && typeof data === 'object' && data.message` (conn.on('data') guard). -/
def isValidData : WireData → Bool
  | WireData.object m => m.message != ""
  | _ => false

/-- NetworkTopology of MeshNetwork.tsx: node ids with adjacency lists and
(from, to, quality) edges. -/
structure NetworkTopology where
  nodes : List (String × List String)
  edges : List (String × String × Nat)
deriving DecidableEq, Repr

/-- `connectionState` of the enhanced MeshNetwork component. -/
inductive ConnState
  | initializing
  | ready
  | connecting
  | connected
  | error
deriving DecidableEq, Repr

/-- Observable effects of a MeshNetwork step: a `conn.send` to a peer, an
`onMessageReceived` delivery to the local consumer, the `onPeersChange` /
`onConnectionChange` / `onTopologyChange` notifications, and a
`peer.connect` request. -/
inductive MeshAction
  | sendTo (peer : String) (msg : EmergencyMessage)
  | deliverLocal (msg : EmergencyMessage)
  | peersChanged (peers : List String)
  | connectionChanged (connected : Bool)
  | topologyChanged (topo : NetworkTopology)
  | connectRequest (peer : String)
deriving DecidableEq, Repr

/-- State of one MeshNetwork node.
`hasPeer` models `peerRef.current !== null`; `peerId` models
`peerRef.current?.id || ''`; `connections` models `connectionsRef`
(peer id paired with the `conn.open` flag); `messageHistory` is the
SeenMessageSet; `reconnectTimeouts` holds the peer ids with an outstanding
retry timer (`reconnectTimeoutRef` keys); `hasTopologyObserver` models
whether the optional `onTopologyChange` callback was supplied. -/
structure MeshState where
  hasPeer : Bool
  peerId : String
  connections : List (String × Bool)
  messageHistory : List String
  reconnectTimeouts : List String
  connectionState : ConnState
  hasTopologyObserver : Bool
deriving DecidableEq, Repr

/-- `updatePeersList`: emits `onPeersChange` and `onConnectionChange`, then
adjusts `connectionState` between connected and ready (MeshNetwork.tsx
lines 201-211). -/
def updatePeersList (st : MeshState) : MeshState × List MeshAction :=
  let peers := st.connections.map Prod.fst
  ({ st with connectionState :=
      if 0 < peers.length ∧ st.connectionState ≠ ConnState.connected then
        ConnState.connected
      else if peers.length = 0 ∧ st.connectionState = ConnState.connected then
        ConnState.ready
      else st.connectionState },
   [MeshAction.peersChanged peers,
    MeshAction.connectionChanged (decide (0 < peers.length))])

/-- The snapshot built by `updateTopology` (MeshNetwork.tsx lines 213-230):
one self node with its adjacency list and one quality-1 edge per connection. -/
def mkTopology (st : MeshState) : NetworkTopology :=
  let myId := st.peerId
  let ks := st.connections.map Prod.fst
  { nodes := [(myId, ks)], edges := ks.map (fun p => (myId, p, 1)) }

/-- `updateTopology`: fires `onTopologyChange` with the recomputed snapshot,
but only when the observer callback was supplied. -/
def updateTopology (st : MeshState) : List MeshAction :=
  if st.hasTopologyObserver then [MeshAction.topologyChanged (mkTopology st)] else []

/-- The constant reconnect delay of `scheduleReconnection`
(`setTimeout(..., 5000)`), in milliseconds. -/
def reconnectDelayMs : ℚ := 5000

/-- `scheduleReconnection` (MeshNetwork.tsx lines 181-199): a no-op when a
timer for the peer is already pending or the node is in the error state;
otherwise records a pending retry timer for the peer. -/
def scheduleReconnection (st : MeshState) (peerId : String) : MeshState :=
  { st with reconnectTimeouts :=
      if peerId ∈ st.reconnectTimeouts ∨ st.connectionState = ConnState.error then
        st.reconnectTimeouts
      else peerId :: st.reconnectTimeouts }

/-- The `conn.on('open')` handler of `setupConnection` (lines 107-122):
records the open connection, notifies peers-list and topology observers,
sets the connected state, and cancels any pending reconnect timer for
that peer. -/
def onOpen (st : MeshState) (peer : String) : MeshState × List MeshAction :=
  let st1 := { st with
    connections := st.connections.filter (fun c => c.1 != peer) ++ [(peer, true)] }
  let r := updatePeersList st1
  let acts2 := updateTopology r.1
  let st3 := { r.1 with
    connectionState := ConnState.connected,
    reconnectTimeouts := r.1.reconnectTimeouts.filter (fun q => q != peer) }
  (st3, r.2 ++ acts2)

/-- The `conn.on('data')` handler of `setupConnection` (lines 124-160):
guard malformed data; drop already-seen ids silently; otherwise record the
id, deliver locally, and—when self is not yet on the route—re-broadcast the
route-extended envelope to every open connection except the sender. -/
def onData (st : MeshState) (fromPeer : String) (data : WireData) :
    MeshState × List MeshAction :=
  match data with
  | WireData.object m =>
    if m.message = "" then (st, [])
    else if m.id ∈ st.messageHistory then (st, [])
    else
      let st' := { st with messageHistory := m.id :: st.messageHistory }
      let route := m.route.getD []
      let forwards :=
        if st.peerId ∈ route then []
        else
          let updated := { m with route := some (route ++ [st.peerId]) }
          (st.connections.filter (fun c => c.2 && c.1 != fromPeer)).map
            (fun c => MeshAction.sendTo c.1 updated)
      (st', MeshAction.deliverLocal m :: forwards)
  | _ => (st, [])

/-- The `conn.on('close')` handler (lines 162-171): removes the connection,
notifies peers-list and topology observers, and schedules a reconnection. -/
def onClose (st : MeshState) (peer : String) : MeshState × List MeshAction :=
  let st1 := { st with connections := st.connections.filter (fun c => c.1 != peer) }
  let r := updatePeersList st1
  let acts2 := updateTopology r.1
  (scheduleReconnection r.1 peer, r.2 ++ acts2)

/-- The `conn.on('error')` handler (lines 173-178): removes the connection,
notifies the peers-list observers, and schedules a reconnection.  Unlike
the open/close handlers it does not call `updateTopology`. -/
def onError (st : MeshState) (peer : String) : MeshState × List MeshAction :=
  let st1 := { st with connections := st.connections.filter (fun c => c.1 != peer) }
  let r := updatePeersList st1
  (scheduleReconnection r.1 peer, r.2)

/-- Firing of a pending reconnect timer (the `setTimeout` body of
`scheduleReconnection`): issues a connect request when the guard
(`peerRef.current && peerId !== peerRef.current.id && connectionState === 'ready'`)
holds, then clears the timer entry. -/
def timerFire (st : MeshState) (peerId : String) : MeshState × List MeshAction :=
  if peerId ∈ st.reconnectTimeouts then
    let acts :=
      if st.hasPeer = true ∧ peerId ≠ st.peerId ∧ st.connectionState = ConnState.ready
      then [MeshAction.connectRequest peerId] else []
    ({ st with reconnectTimeouts := st.reconnectTimeouts.filter (fun q => q != peerId) },
     acts)
  else (st, [])

/-- `connectToPeer` of the enhanced MeshNetwork (lines 52-64): issues an
outbound connect request only when a peer object exists, the target differs
from self, and the node state is ready.  It inspects nothing else (in
particular not the connection table) and changes no state. -/
def connectToPeer (st : MeshState) (peerId : String) : MeshState × Option String :=
  if st.hasPeer = true ∧ peerId ≠ st.peerId ∧ st.connectionState = ConnState.ready
  then (st, some peerId) else (st, none)

/-- `connectToPeer` of the earlier MeshNetwork revision (unnamed part_000
lines 35-42): same guard without the connection-state check. -/
def connectToPeerBasic (st : MeshState) (peerId : String) : MeshState × Option String :=
  if st.hasPeer = true ∧ peerId ≠ st.peerId then (st, some peerId) else (st, none)

/-- `broadcastMessage` (lines 65-86): stamps `route = [self]` on the envelope
and sends it to every open connection.  Returns the stamped envelope paired
with the list of sends. -/
def broadcastMessage (st : MeshState) (message : EmergencyMessage) :
    EmergencyMessage × List MeshAction :=
  let messageWithRoute := { message with route := some [st.peerId] }
  (messageWithRoute,
   (st.connections.filter (fun c => c.2)).map
     (fun c => MeshAction.sendTo c.1 messageWithRoute))

/-- The transport events a MeshNetwork node reacts to. -/
inductive MeshEvent
  | openEvt (peer : String)
  | dataEvt (fromPeer : String) (data : WireData)
  | closeEvt (peer : String)
  | errorEvt (peer : String)
  | timerEvt (peer : String)
deriving DecidableEq, Repr

/-- One event-handler dispatch of the node. -/
def meshStep (st : MeshState) : MeshEvent → MeshState × List MeshAction
  | MeshEvent.openEvt p => onOpen st p
  | MeshEvent.dataEvt f d => onData st f d
  | MeshEvent.closeEvt p => onClose st p
  | MeshEvent.errorEvt p => onError st p
  | MeshEvent.timerEvt p => timerFire st p

/-- Serialized execution of a sequence of events on one node, accumulating
the emitted actions. -/
def meshRun (st : MeshState) : List MeshEvent → MeshState × List MeshAction
  | [] => (st, [])
  | e :: es =>
    let r := meshStep st e
    let r' := meshRun r.1 es
    (r'.1, r.2 ++ r'.2)

/-- Whether an action is a local-consumer delivery of the message id `i`. -/
def isDeliveryOf (i : String) : MeshAction → Bool
  | MeshAction.deliverLocal m => m.id == i
  | _ => false

/-- Whether an action is a topology-changed notification. -/
def isTopologyAct : MeshAction → Bool
  | MeshAction.topologyChanged _ => true
  | _ => false

/-- Whether an action is a peer-list-changed notification. -/
def isPeersAct : MeshAction → Bool
  | MeshAction.peersChanged _ => true
  | _ => false

/-- Whether an action is a connect request for peer `p`. -/
def isConnectReq (p : String) : MeshAction → Bool
  | MeshAction.connectRequest q => q == p
  | _ => false

/-- How many times the id `i` is delivered to the local consumer in `acts`. -/
def countDeliveries (i : String) (acts : List MeshAction) : Nat :=
  acts.countP (isDeliveryOf i)

/-- How many connect requests for peer `p` occur in `acts`. -/
def countConnectReqs (p : String) (acts : List MeshAction) : Nat :=
  acts.countP (isConnectReq p)

/-! ## Index page (message origination, Index.tsx) -/

/-- State of the Index page: the node id handed up by `onPeerIdChange`, the
peer list handed up by `onPeersChange`, the local message list shown to the
consumer, whether the mesh component ref is attached, and the acquired
location. -/
structure IndexState where
  peerId : String
  connectedPeers : List String
  messages : List EmergencyMessage
  hasMeshRef : Bool
  userLocation : Option GeoLocation
deriving DecidableEq, Repr

/-- Keywords classified as high urgency (Index.tsx `classifyUrgency`). -/
def highKeywords : List String :=
  ["trapped", "emergency", "help", "fire", "injured", "urgent", "danger"]

/-- Keywords classified as medium urgency. -/
def mediumKeywords : List String :=
  ["hurt", "stuck", "need assistance", "problem"]

/-- Substring containment on character lists (JavaScript `String.includes`). -/
def charsContain : List Char → List Char → Bool
  | _, [] => true
  | [], _ :: _ => false
  | c :: cs, sub => List.isPrefixOf sub (c :: cs) || charsContain cs sub

/-- Substring containment on strings. -/
def strContains (s sub : String) : Bool :=
  charsContain s.data sub.data

/-- `classifyUrgency`: keyword scan over the lower-cased message. -/
def classifyUrgency (message : String) : Urgency :=
  let lowerMessage := message.toLower
  if highKeywords.any (fun k => strContains lowerMessage k) then Urgency.HIGH
  else if mediumKeywords.any (fun k => strContains lowerMessage k) then Urgency.MEDIUM
  else Urgency.LOW

/-- `sendEmergencyMessage` (Index.tsx lines 83-110): refuses (error toast
only) when the mesh ref is missing or no peers are connected; otherwise
builds the envelope (`id = Date.now().toString()`), prepends it to the
local message list, and broadcasts it through the mesh component.  `now`
is the `Date.now()` value at the call. -/
def sendEmergencyMessage (ist : IndexState) (mesh : MeshState)
    (messageText : String) (now : Nat) : IndexState × List MeshAction :=
  if ¬ ist.hasMeshRef = true ∨ ist.connectedPeers.length = 0 then (ist, [])
  else
    let emergencyMsg : EmergencyMessage :=
      { id := toString now
        message := messageText
        urgency := classifyUrgency messageText
        timestamp := now
        location := ist.userLocation
        senderId := ist.peerId
        route := none }
    ({ ist with messages := emergencyMsg :: ist.messages },
     (broadcastMessage mesh emergencyMsg).2)

/-! ## ConnectionManager (discovery, retry backoff; unnamed part_001) -/

/-- The discovery connection states reported via `onConnectionStateChange`. -/
inductive DiscoveryState
  | discovering
  | connecting
  | connected
  | disconnected
deriving DecidableEq, Repr

/-- Observable effects of a ConnectionManager step: a delayed
`connectToPeer` call scheduled `delay` milliseconds ahead, and a discovery
state notification. -/
inductive CMAction
  | connectAfter (peerId : String) (delay : ℚ)
  | stateChanged (state : DiscoveryState)
deriving DecidableEq, Repr

/-- ConnectionManager state: the node's own id as read from the mesh ref,
the set of already-discovered peers, and the per-peer connection attempt
counters (`connectionAttempts`). -/
structure CMState where
  myPeerId : String
  discoveredPeers : List String
  connectionAttempts : List (String × Nat)
deriving DecidableEq, Repr

/-- `connectionAttempts.get(peerId) || 0`. -/
def getAttempts (s : CMState) (peerId : String) : Nat :=
  match s.connectionAttempts.lookup peerId with
  | some n => n
  | none => 0

/-- `maxAttempts = 3` of the enhanced `attemptConnection`. -/
def cmMaxAttempts : Nat := 3

/-- `baseDelay = 1000` milliseconds. -/
def cmBaseDelay : ℚ := 1000

/-- The growth factor `1.5` of `baseDelay * Math.pow(1.5, attempts)`. -/
def cmGrowthFactor : ℚ := 3 / 2

/-- The backoff delay before the next attempt, given the current counter. -/
def attemptDelay (attempts : Nat) : ℚ :=
  cmBaseDelay * cmGrowthFactor ^ attempts

/-- The scheduling decision of `attemptConnection` (part_001 lines 240-264):
`none` when the counter has reached the cap, otherwise the backoff delay of
the timeout it sets. -/
def attemptConnection (attempts : Nat) : Option ℚ :=
  if cmMaxAttempts ≤ attempts then none else some (attemptDelay attempts)

/-- `setConnectionAttempts(new Map([...prev, [peerId, n]]))`: overwrite the
peer's counter. -/
def setAttempts (s : CMState) (peerId : String) (n : Nat) : CMState :=
  { s with connectionAttempts :=
      (peerId, n) :: s.connectionAttempts.filter (fun q => q.1 != peerId) }

/-- The events driving the ConnectionManager: a discovery-triggered
`attemptConnection` cycle for a peer (timeout set and later fired, counter
incremented at fire time), and a heartbeat tick. -/
inductive CMEvent
  | attemptEvt (peerId : String)
  | heartbeatEvt
deriving DecidableEq, Repr

/-- One `attemptConnection` cycle: nothing happens at or beyond the cap;
below it, the counter is bumped and a connect is scheduled after the
backoff delay. -/
def cmAttemptConnection (s : CMState) (peerId : String) : CMState × List CMAction :=
  let attempts := getAttempts s peerId
  match attemptConnection attempts with
  | none => (s, [])
  | some delay =>
    (setAttempts s peerId (attempts + 1), [CMAction.connectAfter peerId delay])

/-- One heartbeat tick (part_001 lines 267-290): reports the discovery
state derived from the currently connected peers, and resets every
connection-attempt counter when no peer is connected but peers have been
discovered. -/
def cmHeartbeat (connectedPeers : List String) (s : CMState) :
    CMState × List CMAction :=
  let stateAct :=
    if 0 < connectedPeers.length then CMAction.stateChanged DiscoveryState.connected
    else if s.myPeerId ≠ "" then
      if 0 < s.discoveredPeers.length then
        CMAction.stateChanged DiscoveryState.connecting
      else CMAction.stateChanged DiscoveryState.discovering
    else CMAction.stateChanged DiscoveryState.disconnected
  let s' :=
    if connectedPeers.length = 0 ∧ 0 < s.discoveredPeers.length then
      { s with connectionAttempts := [] }
    else s
  (s', [stateAct])

/-- One ConnectionManager event dispatch.  `connectedPeers` is the list the
heartbeat reads from the mesh ref at tick time. -/
def cmStep (connectedPeers : List String) (s : CMState) :
    CMEvent → CMState × List CMAction
  | CMEvent.attemptEvt p => cmAttemptConnection s p
  | CMEvent.heartbeatEvt => cmHeartbeat connectedPeers s

/-- Serialized execution of ConnectionManager events with a fixed connected
peer list. -/
def cmRun (connectedPeers : List String) (s : CMState) :
    List CMEvent → CMState × List CMAction
  | [] => (s, [])
  | e :: es =>
    let r := cmStep connectedPeers s e
    let r' := cmRun connectedPeers r.1 es
    (r'.1, r.2 ++ r'.2)

/-- Whether a ConnectionManager action is a scheduled connect for peer `p`. -/
def isCMConnect (p : String) : CMAction → Bool
  | CMAction.connectAfter q _ => q == p
  | _ => false

/-- How many connects for `p` get scheduled in `acts`. -/
def countCMConnects (p : String) (acts : List CMAction) : Nat :=
  acts.countP (isCMConnect p)

/-! ## Presence registry (discovery scan and sweep; unnamed part_001) -/

/-- The advertised presence record: the owning peer id and the creation
instant (`Date.now()` at advertise time).  Status/version/capability tags
are constants in the source and play no role in scan or sweep. -/
structure PresenceRecord where
  peerId : String
  timestamp : Nat
deriving DecidableEq, Repr

/-- The presence staleness window: 60000 ms (part_001 `lastSeen < 60000`
and `cutoff = Date.now() - 60000`). -/
def presenceTTLMs : Nat := 60000

/-- The localStorage branch of `discoverPeers` (part_001 lines 162-182):
a record is discovered (discovery event emitted and `attemptConnection`
invoked) when its peer id is truthy, differs from self, is not yet known,
and its age is below the TTL. -/
def discoverLocalPeers (now : Nat) (myPeerId : String) (discovered : List String)
    (entries : List PresenceRecord) : List String :=
  (entries.filter (fun r =>
      r.peerId != "" && r.peerId != myPeerId &&
      !(decide (r.peerId ∈ discovered)) &&
      decide (now - r.timestamp < presenceTTLMs))).map PresenceRecord.peerId

/-- The sessionStorage branch of `discoverPeers` (part_001 lines 184-197):
same guards, but with no age check. -/
def discoverSessionPeers (_now : Nat) (myPeerId : String) (discovered : List String)
    (entries : List PresenceRecord) : List String :=
  (entries.filter (fun r =>
      r.peerId != "" && r.peerId != myPeerId &&
      !(decide (r.peerId ∈ discovered)))).map PresenceRecord.peerId

/-- One full `discoverPeers` scan over both stores. -/
def discoverPeersScan (now : Nat) (myPeerId : String) (discovered : List String)
    (localEntries sessionEntries : List PresenceRecord) : List String :=
  discoverLocalPeers now myPeerId discovered localEntries ++
    discoverSessionPeers now myPeerId discovered sessionEntries

/-- `cleanupOldPeers` (part_001 lines 203-227): the sweep keeps exactly the
records not strictly older than the cutoff `now - 60000`. -/
def cleanupOldPeers (now : Nat) (entries : List PresenceRecord) :
    List PresenceRecord :=
  entries.filter (fun r => !(decide (r.timestamp < now - presenceTTLMs)))

/-! ## Combined node (MeshNetwork + ConnectionManager) -/

/-- A node running both the MeshNetwork and the ConnectionManager. -/
structure SysState where
  mesh : MeshState
  cm : CMState
deriving DecidableEq, Repr

/-- An event of the combined node. -/
inductive SysEvent
  | meshEvt (e : MeshEvent)
  | cmEvt (e : CMEvent)
deriving DecidableEq, Repr

/-- An action of the combined node. -/
inductive SysAction
  | meshAct (a : MeshAction)
  | cmAct (a : CMAction)
deriving DecidableEq, Repr

/-- One combined step.  A heartbeat reads the connected peers from the live
mesh state (`meshNetworkRef.current?.getConnectedPeers()`). -/
def sysStep (s : SysState) : SysEvent → SysState × List SysAction
  | SysEvent.meshEvt e =>
    let r := meshStep s.mesh e
    ({ s with mesh := r.1 }, r.2.map SysAction.meshAct)
  | SysEvent.cmEvt e =>
    let r := cmStep (s.mesh.connections.map Prod.fst) s.cm e
    ({ s with cm := r.1 }, r.2.map SysAction.cmAct)

/-- Serialized execution of combined events. -/
def sysRun (s : SysState) : List SysEvent → SysState × List SysAction
  | [] => (s, [])
  | e :: es =>
    let r := sysStep s e
    let r' := sysRun r.1 es
    (r'.1, r.2 ++ r'.2)

/-! ## Sample states for witnesses and counterexamples -/

/-- A node A connected to open peers B and C and a not-yet-open peer D,
having already seen message id m0. -/
def sampleNode : MeshState :=
  { hasPeer := true, peerId := "A",
    connections := [("B", true), ("C", true), ("D", false)],
    messageHistory := ["m0"], reconnectTimeouts := [],
    connectionState := ConnState.connected, hasTopologyObserver := true }

/-- A fresh envelope m1 arriving from B with route [B]. -/
def sampleMsg : EmergencyMessage :=
  { id := "m1", message := "fire", urgency := Urgency.HIGH, timestamp := 10,
    senderId := "B", route := some ["B"] }

/-- An envelope whose id m0 the sample node has already seen. -/
def sampleDupMsg : EmergencyMessage :=
  { id := "m0", message := "help", urgency := Urgency.HIGH, timestamp := 4,
    senderId := "C", route := some ["C"] }

/-- An idle, ready node A with no connections. -/
def readyNode : MeshState :=
  { hasPeer := true, peerId := "A", connections := [], messageHistory := [],
    reconnectTimeouts := [], connectionState := ConnState.ready,
    hasTopologyObserver := true }

/-! ## General lemmas -/

theorem updatePeersList_messageHistory (st : MeshState) :
    (updatePeersList st).1.messageHistory = st.messageHistory := rfl

theorem updatePeersList_reconnectTimeouts (st : MeshState) :
    (updatePeersList st).1.reconnectTimeouts = st.reconnectTimeouts := rfl

theorem scheduleReconnection_messageHistory (st : MeshState) (p : String) :
    (scheduleReconnection st p).messageHistory = st.messageHistory := rfl

theorem countDeliveries_nil (i : String) : countDeliveries i [] = 0 := rfl

theorem countDeliveries_append (i : String) (l l' : List MeshAction) :
    countDeliveries i (l ++ l') = countDeliveries i l + countDeliveries i l' :=
  List.countP_append _ _ _

theorem countDeliveries_updateTopology (i : String) (st : MeshState) :
    countDeliveries i (updateTopology st) = 0 := by
  unfold updateTopology
  split <;> simp [countDeliveries, isDeliveryOf]

theorem countDeliveries_updatePeersList (i : String) (st : MeshState) :
    countDeliveries i (updatePeersList st).2 = 0 := by
  simp [updatePeersList, countDeliveries, isDeliveryOf]

theorem countDeliveries_map_sendTo (i : String) (l : List (String × Bool))
    (msg : EmergencyMessage) :
    countDeliveries i (l.map (fun c => MeshAction.sendTo c.1 msg)) = 0 := by
  simp [countDeliveries, List.countP_eq_zero, isDeliveryOf]

/-- A malformed or already-seen datum is dropped with no state change and
no output. -/
theorem onData_drop (st : MeshState) (f : String) (m : EmergencyMessage)
    (h : m.message = "" ∨ m.id ∈ st.messageHistory) :
    onData st f (WireData.object m) = (st, []) := by
  unfold onData
  rcases h with h | h
  · simp [h]
  · by_cases hmsg : m.message = "" <;> simp [hmsg, h]

/-- Shape of a fresh receive: the id is recorded, the message is delivered
once, and the route-extended envelope is forwarded to the open non-sender
connections unless self is already on the route. -/
theorem onData_fresh (st : MeshState) (f : String) (m : EmergencyMessage)
    (hmsg : ¬ m.message = "") (hid : m.id ∉ st.messageHistory) :
    onData st f (WireData.object m) =
      ({ st with messageHistory := m.id :: st.messageHistory },
       MeshAction.deliverLocal m ::
         (if st.peerId ∈ m.route.getD [] then []
          else ((st.connections.filter (fun c => c.2 && c.1 != f)).map
            (fun c => MeshAction.sendTo c.1
              { m with route := some (m.route.getD [] ++ [st.peerId]) })))) := by
  unfold onData
  simp [hmsg, hid]

theorem countDeliveries_forwards (i : String) (c : Prop) [Decidable c]
    (l : List (String × Bool)) (msg : EmergencyMessage) :
    countDeliveries i
      (if c then ([] : List MeshAction)
       else l.map (fun c => MeshAction.sendTo c.1 msg)) = 0 := by
  split
  · rfl
  · exact countDeliveries_map_sendTo i l msg

theorem onOpen_messageHistory (st : MeshState) (p : String) :
    (onOpen st p).1.messageHistory = st.messageHistory := rfl

theorem onClose_messageHistory (st : MeshState) (p : String) :
    (onClose st p).1.messageHistory = st.messageHistory := rfl

theorem onError_messageHistory (st : MeshState) (p : String) :
    (onError st p).1.messageHistory = st.messageHistory := rfl

theorem timerFire_messageHistory (st : MeshState) (p : String) :
    (timerFire st p).1.messageHistory = st.messageHistory := by
  unfold timerFire
  split <;> rfl

theorem countDeliveries_onOpen (i : String) (st : MeshState) (p : String) :
    countDeliveries i (onOpen st p).2 = 0 := by
  unfold onOpen
  rw [countDeliveries_append, countDeliveries_updatePeersList,
    countDeliveries_updateTopology]

theorem countDeliveries_onClose (i : String) (st : MeshState) (p : String) :
    countDeliveries i (onClose st p).2 = 0 := by
  unfold onClose
  rw [countDeliveries_append, countDeliveries_updatePeersList,
    countDeliveries_updateTopology]

theorem countDeliveries_onError (i : String) (st : MeshState) (p : String) :
    countDeliveries i (onError st p).2 = 0 := by
  unfold onError
  exact countDeliveries_updatePeersList i _

theorem countDeliveries_timerFire (i : String) (st : MeshState) (p : String) :
    countDeliveries i (timerFire st p).2 = 0 := by
  unfold timerFire
  split
  · dsimp only
    split <;> simp [countDeliveries, isDeliveryOf]
  · rfl

/-- A fresh receive delivers exactly the received id, once. -/
theorem countDeliveries_onData_fresh (st : MeshState) (f : String)
    (m : EmergencyMessage) (i : String)
    (hmsg : ¬ m.message = "") (hid : m.id ∉ st.messageHistory) :
    countDeliveries i (onData st f (WireData.object m)).2 =
      (if m.id = i then 1 else 0) := by
  rw [onData_fresh st f m hmsg hid]
  dsimp only
  simp only [countDeliveries, List.countP_cons]
  have := countDeliveries_forwards i (st.peerId ∈ m.route.getD [])
    (st.connections.filter (fun c => c.2 && c.1 != f))
    { m with route := some (m.route.getD [] ++ [st.peerId]) }
  simp only [countDeliveries] at this
  rw [this]
  by_cases him : m.id = i <;> simp [isDeliveryOf, him]

/-- Per-event facts feeding the at-most-once induction: each dispatch
delivers an id at most once and never an already-seen id, and the seen set
is monotone and records every delivered id. -/
theorem meshStep_deliv (st : MeshState) (e : MeshEvent) (i : String) :
    countDeliveries i (meshStep st e).2 ≤ (if i ∈ st.messageHistory then 0 else 1) ∧
    (i ∈ st.messageHistory → i ∈ (meshStep st e).1.messageHistory) ∧
    (0 < countDeliveries i (meshStep st e).2 →
      i ∈ (meshStep st e).1.messageHistory) := by
  have hite : (0 : Nat) ≤ (if i ∈ st.messageHistory then 0 else 1) := by positivity
  cases e with
  | dataEvt f d =>
    cases d with
    | object m =>
      show countDeliveries i (onData st f (WireData.object m)).2 ≤ _ ∧
        (_ → i ∈ (onData st f (WireData.object m)).1.messageHistory) ∧
        (0 < countDeliveries i (onData st f (WireData.object m)).2 →
          i ∈ (onData st f (WireData.object m)).1.messageHistory)
      by_cases hdrop : m.message = "" ∨ m.id ∈ st.messageHistory
      · rw [onData_drop st f m hdrop]
        exact ⟨hite, fun hi => hi, by simp [countDeliveries]⟩
      · push_neg at hdrop
        obtain ⟨hmsg, hid⟩ := hdrop
        have hcnt := countDeliveries_onData_fresh st f m i hmsg hid
        rw [onData_fresh st f m hmsg hid] at hcnt ⊢
        dsimp only at hcnt ⊢
        refine ⟨?_, fun hi => List.mem_cons_of_mem _ hi, ?_⟩
        · rw [hcnt]
          by_cases him : m.id = i
          · have hi : i ∉ st.messageHistory := him ▸ hid
            simp [him, hi]
          · have h0 : (if m.id = i then 1 else 0) = 0 := by simp [him]
            rw [h0]; positivity
        · intro hpos
          rw [hcnt] at hpos
          by_cases him : m.id = i
          · exact him ▸ List.mem_cons_self _ _
          · simp [him] at hpos
    | nullDatum =>
      exact ⟨hite, fun hi => hi, by simp [meshStep, onData, countDeliveries]⟩
    | primitive s =>
      exact ⟨hite, fun hi => hi, by simp [meshStep, onData, countDeliveries]⟩
  | openEvt p =>
    refine ⟨?_, ?_, ?_⟩
    · rw [show (meshStep st (MeshEvent.openEvt p)).2 = (onOpen st p).2 from rfl,
        countDeliveries_onOpen]
      exact hite
    · intro hi
      rw [show (meshStep st (MeshEvent.openEvt p)).1.messageHistory =
        st.messageHistory from onOpen_messageHistory st p]
      exact hi
    · intro hpos
      rw [show (meshStep st (MeshEvent.openEvt p)).2 = (onOpen st p).2 from rfl,
        countDeliveries_onOpen] at hpos
      omega
  | closeEvt p =>
    refine ⟨?_, ?_, ?_⟩
    · rw [show (meshStep st (MeshEvent.closeEvt p)).2 = (onClose st p).2 from rfl,
        countDeliveries_onClose]
      exact hite
    · intro hi
      rw [show (meshStep st (MeshEvent.closeEvt p)).1.messageHistory =
        st.messageHistory from onClose_messageHistory st p]
      exact hi
    · intro hpos
      rw [show (meshStep st (MeshEvent.closeEvt p)).2 = (onClose st p).2 from rfl,
        countDeliveries_onClose] at hpos
      omega
  | errorEvt p =>
    refine ⟨?_, ?_, ?_⟩
    · rw [show (meshStep st (MeshEvent.errorEvt p)).2 = (onError st p).2 from rfl,
        countDeliveries_onError]
      exact hite
    · intro hi
      rw [show (meshStep st (MeshEvent.errorEvt p)).1.messageHistory =
        st.messageHistory from onError_messageHistory st p]
      exact hi
    · intro hpos
      rw [show (meshStep st (MeshEvent.errorEvt p)).2 = (onError st p).2 from rfl,
        countDeliveries_onError] at hpos
      omega
  | timerEvt p =>
    refine ⟨?_, ?_, ?_⟩
    · rw [show (meshStep st (MeshEvent.timerEvt p)).2 = (timerFire st p).2 from rfl,
        countDeliveries_timerFire]
      exact hite
    · intro hi
      rw [show (meshStep st (MeshEvent.timerEvt p)).1.messageHistory =
        st.messageHistory from timerFire_messageHistory st p]
      exact hi
    · intro hpos
      rw [show (meshStep st (MeshEvent.timerEvt p)).2 = (timerFire st p).2 from rfl,
        countDeliveries_timerFire] at hpos
      omega

/-- Over any event sequence a message id is delivered at most once, and
never if it was already seen at the start. -/
theorem meshRun_deliv_le (st : MeshState) (evts : List MeshEvent) (i : String) :
    countDeliveries i (meshRun st evts).2 ≤
      (if i ∈ st.messageHistory then 0 else 1) := by
  induction evts generalizing st with
  | nil =>
    have : countDeliveries i (meshRun st []).2 = 0 := rfl
    rw [this]; positivity
  | cons e es ih =>
    obtain ⟨h1, h2, h3⟩ := meshStep_deliv st e i
    have hrun : (meshRun st (e :: es)).2 =
        (meshStep st e).2 ++ (meshRun (meshStep st e).1 es).2 := by
      simp [meshRun]
    rw [hrun, countDeliveries_append]
    have ih' := ih (meshStep st e).1
    by_cases hmem : i ∈ st.messageHistory
    · have hmem' : i ∈ (meshStep st e).1.messageHistory := h2 hmem
      simp only [if_pos hmem] at h1 ⊢
      simp only [if_pos hmem'] at ih'
      omega
    · simp only [if_neg hmem] at h1 ⊢
      by_cases hpos : 0 < countDeliveries i (meshStep st e).2
      · have hmem' := h3 hpos
        simp only [if_pos hmem'] at ih'
        omega
      · have hz : countDeliveries i (meshStep st e).2 = 0 := by omega
        rw [hz]
        split at ih' <;> omega

/-! ## Claim theorems -/

/-- C1: For every node and every MessageEnvelope id, the local consumer
callback fires at most once: when the data handler receives an envelope
whose id is already in the SeenMessageSet it drops it silently (no delivery,
no forwarding, no state change); otherwise it inserts the id and delivers
exactly once; and over any event sequence — however many neighbors relay the
same envelope, cycles included — each id is delivered at most once. -/
theorem C1_at_most_once_delivery :
    (∀ (st : MeshState) (fromPeer : String) (m : EmergencyMessage),
        m.id ∈ st.messageHistory →
        onData st fromPeer (WireData.object m) = (st, [])) ∧
    (∀ (st : MeshState) (fromPeer : String) (m : EmergencyMessage),
        isValidData (WireData.object m) = true → m.id ∉ st.messageHistory →
        countDeliveries m.id (onData st fromPeer (WireData.object m)).2 = 1 ∧
        m.id ∈ (onData st fromPeer (WireData.object m)).1.messageHistory) ∧
    (∀ (st : MeshState) (evts : List MeshEvent) (i : String),
        countDeliveries i (meshRun st evts).2 ≤ 1) := by
  refine ⟨?_, ?_, ?_⟩
  · intro st f m h
    exact onData_drop st f m (Or.inr h)
  · intro st f m hvalid hid
    have hmsg : ¬ m.message = "" := by simpa [isValidData] using hvalid
    constructor
    · rw [countDeliveries_onData_fresh st f m m.id hmsg hid]
      simp
    · rw [onData_fresh st f m hmsg hid]
      exact List.mem_cons_self _ _
  · intro st evts i
    have h := meshRun_deliv_le st evts i
    split at h <;> omega

/-- Witness for C1 on concrete inputs: a duplicate id is dropped with no
output, a fresh id is delivered exactly once, and two relays of the same
envelope from different neighbors still yield at most one delivery. -/
theorem C1_at_most_once_delivery_witness :
    onData sampleNode "C" (WireData.object sampleDupMsg) = (sampleNode, []) ∧
    countDeliveries "m1" (onData sampleNode "B" (WireData.object sampleMsg)).2 = 1 ∧
    countDeliveries "m1" (meshRun sampleNode
      [MeshEvent.dataEvt "B" (WireData.object sampleMsg),
       MeshEvent.dataEvt "C" (WireData.object sampleMsg)]).2 ≤ 1 :=
  ⟨C1_at_most_once_delivery.1 sampleNode "C" sampleDupMsg (by decide),
   (C1_at_most_once_delivery.2.1 sampleNode "B" sampleMsg (by decide) (by decide)).1,
   C1_at_most_once_delivery.2.2 sampleNode
     [MeshEvent.dataEvt "B" (WireData.object sampleMsg),
      MeshEvent.dataEvt "C" (WireData.object sampleMsg)] "m1"⟩

/-- C2: whenever a received envelope is forwarded, the fan-out sends the
route-updated envelope to every currently open connection except the one it
arrived from, and to nothing else — in particular never back to the sender. -/
theorem C2_no_echo :
    ∀ (st : MeshState) (fromPeer : String) (m : EmergencyMessage),
      isValidData (WireData.object m) = true →
      m.id ∉ st.messageHistory →
      st.peerId ∉ m.route.getD [] →
      (∀ p, p ≠ fromPeer → (p, true) ∈ st.connections →
          MeshAction.sendTo p
              { m with route := some (m.route.getD [] ++ [st.peerId]) }
            ∈ (onData st fromPeer (WireData.object m)).2) ∧
      (∀ p msg,
          MeshAction.sendTo p msg ∈ (onData st fromPeer (WireData.object m)).2 →
          p ≠ fromPeer ∧ (p, true) ∈ st.connections ∧
          msg = { m with route := some (m.route.getD [] ++ [st.peerId]) }) := by
  intro st fromPeer m hvalid hid hroute
  have hmsg : ¬ m.message = "" := by simpa [isValidData] using hvalid
  rw [onData_fresh st fromPeer m hmsg hid]
  dsimp only
  rw [if_neg hroute]
  constructor
  · intro p hpf hpc
    refine List.mem_cons_of_mem _ ?_
    refine List.mem_map.mpr ⟨(p, true), ?_, rfl⟩
    refine List.mem_filter.mpr ⟨hpc, ?_⟩
    simp [hpf]
  · intro p msg hmem
    rcases List.mem_cons.mp hmem with h | h
    · simp at h
    · obtain ⟨c, hc, heq⟩ := List.mem_map.mp h
      obtain ⟨hcmem, hcond⟩ := List.mem_filter.mp hc
      obtain ⟨c1, c2⟩ := c
      simp only [MeshAction.sendTo.injEq] at heq
      obtain ⟨hp1, hp2⟩ := heq
      simp only [Bool.and_eq_true, bne_iff_ne] at hcond
      obtain ⟨hc2, hcf⟩ := hcond
      subst hp1
      cases hc2
      exact ⟨hcf, hcmem, hp2.symm⟩

/-- Witness for C2: with node A open to B and C and closed to D, a fresh
envelope arriving from B is forwarded to C, and nothing is ever sent back
to B. -/
theorem C2_no_echo_witness :
    MeshAction.sendTo "C"
        { sampleMsg with
            route := some (sampleMsg.route.getD [] ++ [sampleNode.peerId]) }
      ∈ (onData sampleNode "B" (WireData.object sampleMsg)).2 ∧
    (MeshAction.sendTo "B"
        { sampleMsg with
            route := some (sampleMsg.route.getD [] ++ [sampleNode.peerId]) }
      ∈ (onData sampleNode "B" (WireData.object sampleMsg)).2 → False) :=
  ⟨(C2_no_echo sampleNode "B" sampleMsg (by decide) (by decide) (by decide)).1
      "C" (by decide) (by decide),
   fun hmem =>
     ((C2_no_echo sampleNode "B" sampleMsg (by decide) (by decide)
        (by decide)).2 "B" _ hmem).1 rfl⟩

/-- C10: a datum that is null, not an object, or lacks a truthy `message`
field is ignored entirely: no delivery, no seen-set change, no forwarding. -/
theorem C10_invalid_data_ignored :
    ∀ (st : MeshState) (fromPeer : String) (d : WireData),
      isValidData d = false → onData st fromPeer d = (st, []) := by
  intro st f d h
  cases d with
  | nullDatum => rfl
  | primitive s => rfl
  | object m =>
    have hmsg : m.message = "" := by simpa [isValidData] using h
    exact onData_drop st f m (Or.inl hmsg)

/-- Witness for C10: a null datum arriving at the sample node changes
nothing and emits nothing. -/
theorem C10_invalid_data_ignored_witness :
    onData sampleNode "B" WireData.nullDatum = (sampleNode, []) :=
  C10_invalid_data_ignored sampleNode "B" WireData.nullDatum (by decide)

/-- Any envelope forwarded by the data handler carries the incoming route
extended by self, and is only produced when self was absent from it. -/
theorem onData_sendTo_route (st : MeshState) (f : String) (m : EmergencyMessage)
    (p : String) (msg : EmergencyMessage)
    (hmem : MeshAction.sendTo p msg ∈ (onData st f (WireData.object m)).2) :
    st.peerId ∉ m.route.getD [] ∧
    msg.route = some (m.route.getD [] ++ [st.peerId]) := by
  by_cases hmsg : m.message = ""
  · rw [onData_drop st f m (Or.inl hmsg)] at hmem
    simp at hmem
  · by_cases hid : m.id ∈ st.messageHistory
    · rw [onData_drop st f m (Or.inr hid)] at hmem
      simp at hmem
    · rw [onData_fresh st f m hmsg hid] at hmem
      dsimp only at hmem
      rcases List.mem_cons.mp hmem with h | h
      · simp at h
      · by_cases hroute : st.peerId ∈ m.route.getD []
        · rw [if_pos hroute] at h
          simp at h
        · rw [if_neg hroute] at h
          obtain ⟨c, _, heq⟩ := List.mem_map.mp h
          simp only [MeshAction.sendTo.injEq] at heq
          exact ⟨hroute, by rw [← heq.2]⟩

/-- C8: the route list never acquires duplicates under correct forwarding:
origination stamps `route = [self]`; a node forwards only when self is not
yet on the route, appending itself; hence both originated and forwarded
envelopes keep a duplicate-free route whenever the incoming one was
duplicate-free. -/
theorem C8_route_nodup :
    (∀ (st : MeshState) (m : EmergencyMessage),
        (broadcastMessage st m).1.route = some [st.peerId]) ∧
    (∀ (st : MeshState) (fromPeer : String) (m : EmergencyMessage)
        (p : String) (msg : EmergencyMessage),
        MeshAction.sendTo p msg ∈ (onData st fromPeer (WireData.object m)).2 →
        st.peerId ∉ m.route.getD [] ∧
        msg.route = some (m.route.getD [] ++ [st.peerId])) ∧
    (∀ (st : MeshState) (fromPeer : String) (m : EmergencyMessage)
        (p : String) (msg : EmergencyMessage),
        (m.route.getD []).Nodup →
        MeshAction.sendTo p msg ∈ (onData st fromPeer (WireData.object m)).2 →
        (msg.route.getD []).Nodup) ∧
    (∀ (st : MeshState) (m : EmergencyMessage) (p : String)
        (msg : EmergencyMessage),
        MeshAction.sendTo p msg ∈ (broadcastMessage st m).2 →
        (msg.route.getD []).Nodup) := by
  refine ⟨fun st m => rfl, onData_sendTo_route, ?_, ?_⟩
  · intro st f m p msg hnd hmem
    obtain ⟨hself, hr⟩ := onData_sendTo_route st f m p msg hmem
    rw [hr]
    refine List.Nodup.append hnd (List.nodup_singleton _) ?_
    intro a ha hb
    rw [List.mem_singleton] at hb
    exact hself (hb ▸ ha)
  · intro st m p msg hmem
    unfold broadcastMessage at hmem
    obtain ⟨c, _, heq⟩ := List.mem_map.mp hmem
    simp only [MeshAction.sendTo.injEq] at heq
    rw [← heq.2]
    exact List.nodup_singleton _

/-- Witness for C8: node A forwards the sample envelope to C with route
[B, A]; the forwarded and broadcast routes are duplicate-free. -/
theorem C8_route_nodup_witness :
    (broadcastMessage sampleNode sampleMsg).1.route = some [sampleNode.peerId] ∧
    (sampleNode.peerId ∉ sampleMsg.route.getD [] ∧
      ({ sampleMsg with route := some (["B", "A"] : List String) }).route =
        some (sampleMsg.route.getD [] ++ [sampleNode.peerId])) ∧
    ((({ sampleMsg with route := some (["B", "A"] : List String) }).route.getD
        []).Nodup) ∧
    ((({ sampleMsg with route := some (["A"] : List String) }).route.getD
        []).Nodup) :=
  ⟨C8_route_nodup.1 sampleNode sampleMsg,
   C8_route_nodup.2.1 sampleNode "B" sampleMsg "C"
     { sampleMsg with route := some (["B", "A"] : List String) } (by decide),
   C8_route_nodup.2.2.1 sampleNode "B" sampleMsg "C"
     { sampleMsg with route := some (["B", "A"] : List String) }
     (by decide) (by decide),
   C8_route_nodup.2.2.2 sampleNode sampleMsg "B"
     { sampleMsg with route := some (["A"] : List String) } (by decide)⟩

/-- Counterexample to C9 as stated: the error-path deletion mutates the
connection table (B is removed) and notifies the peer-list observers, yet
no topology-changed event fires, although a topology observer is present. -/
theorem C9_counterexample :
    sampleNode.hasTopologyObserver = true ∧
    (meshStep sampleNode (MeshEvent.errorEvt "B")).1.connections ≠
      sampleNode.connections ∧
    ((meshStep sampleNode (MeshEvent.errorEvt "B")).2.any isPeersAct) = true ∧
    ((meshStep sampleNode (MeshEvent.errorEvt "B")).2.any isTopologyAct) = false := by
  decide

/-- C9 amended: the open and close mutations notify both the topology
observer (when registered) and the peer-list observers; the error-path
deletion notifies only the peer-list observers and never emits a
topology-changed event. -/
theorem C9_mutation_notifications :
    (∀ (st : MeshState) (p : String), st.hasTopologyObserver = true →
        ((onOpen st p).2.any isTopologyAct) = true ∧
        ((onOpen st p).2.any isPeersAct) = true) ∧
    (∀ (st : MeshState) (p : String), st.hasTopologyObserver = true →
        ((onClose st p).2.any isTopologyAct) = true ∧
        ((onClose st p).2.any isPeersAct) = true) ∧
    (∀ (st : MeshState) (p : String),
        ((onError st p).2.any isTopologyAct) = false ∧
        ((onError st p).2.any isPeersAct) = true) := by
  refine ⟨?_, ?_, ?_⟩
  · intro st p h
    constructor <;>
      simp [onOpen, updatePeersList, updateTopology, h, isTopologyAct, isPeersAct]
  · intro st p h
    constructor <;>
      simp [onClose, updatePeersList, updateTopology, h, isTopologyAct, isPeersAct]
  · intro st p
    constructor <;>
      simp [onError, updatePeersList, isTopologyAct, isPeersAct]

/-- Witness for the amended C9 at a concrete open transition. -/
theorem C9_mutation_notifications_witness :
    ((onOpen readyNode "B").2.any isTopologyAct) = true ∧
    ((onOpen readyNode "B").2.any isPeersAct) = true :=
  C9_mutation_notifications.1 readyNode "B" (by decide)

/-- The ready node with an existing open connection to B. -/
def readyNodeWithB : MeshState :=
  { readyNode with connections := [("B", true)] }

/-- Counterexample to C6 as stated: `connectToPeer` issues an outbound
connect request to B although a connection to B already exists — the guard
never consults the connection table (in the enhanced and the basic
revision alike). -/
theorem C6_counterexample :
    ("B", true) ∈ readyNodeWithB.connections ∧
    (connectToPeer readyNodeWithB "B").2 = some "B" ∧
    ("B", true) ∈ sampleNode.connections ∧
    (connectToPeerBasic sampleNode "B").2 = some "B" := by
  decide

/-- C6 amended: `connectToPeer` changes no state; a self-connect is
rejected with no request (also in the basic revision); the guard is
independent of the connection table; and whenever the peer object exists,
the target differs from self, and the node is ready, the request is
issued. -/
theorem C6_connect_guard :
    (∀ (st : MeshState) (p : String), (connectToPeer st p).1 = st) ∧
    (∀ st : MeshState, (connectToPeer st st.peerId).2 = none) ∧
    (∀ st : MeshState, (connectToPeerBasic st st.peerId).2 = none) ∧
    (∀ (st : MeshState) (p : String) (conns : List (String × Bool)),
        (connectToPeer { st with connections := conns } p).2 =
          (connectToPeer st p).2) ∧
    (∀ (st : MeshState) (p : String), st.hasPeer = true → p ≠ st.peerId →
        st.connectionState = ConnState.ready →
        (connectToPeer st p).2 = some p) := by
  refine ⟨?_, ?_, ?_, ?_, ?_⟩
  · intro st p
    unfold connectToPeer
    split <;> rfl
  · intro st
    simp [connectToPeer]
  · intro st
    simp [connectToPeerBasic]
  · intro st p conns
    unfold connectToPeer
    split <;> rfl
  · intro st p h1 h2 h3
    rw [connectToPeer, if_pos ⟨h1, h2, h3⟩]

/-- Witness for the amended C6: the ready node may connect to the fresh
peer E, while a self-connect yields no request. -/
theorem C6_connect_guard_witness :
    (connectToPeer readyNode "E").2 = some "E" ∧
    (connectToPeer readyNode readyNode.peerId).2 = none :=
  ⟨C6_connect_guard.2.2.2.2 readyNode "E" (by decide) (by decide) (by decide),
   C6_connect_guard.2.1 readyNode⟩

/-- The Index page of a node with no connected peers. -/
def istNoPeers : IndexState :=
  { peerId := "A", connectedPeers := [], messages := [], hasMeshRef := true,
    userLocation := none }

/-- The Index page of a node whose peer list holds B. -/
def istWithB : IndexState :=
  { peerId := "A", connectedPeers := ["B"], messages := [], hasMeshRef := true,
    userLocation := none }

/-- A mesh node whose only table entry is a not-open connection to B. -/
def meshClosedB : MeshState :=
  { readyNode with connections := [("B", false)] }

/-- Counterexample to C3 as stated: originating while no peers are
connected is rejected outright — the message is never added to the local
message list (the consumer sees nothing) and nothing is broadcast. -/
theorem C3_counterexample :
    istNoPeers.hasMeshRef = true ∧ istNoPeers.connectedPeers = [] ∧
    (sendEmergencyMessage istNoPeers readyNode "help" 5).1.messages = [] ∧
    (sendEmergencyMessage istNoPeers readyNode "help" 5).2 = [] := by
  decide

/-- C3 amended: with an empty peer list `sendEmergencyMessage` refuses —
no broadcast and no local delivery; with a non-empty peer list but no open
connection, broadcast is a no-op on the network and the consumer sees the
message exactly once (it is prepended to the local list). -/
theorem C3_origination :
    (∀ (ist : IndexState) (mesh : MeshState) (text : String) (now : Nat),
        ist.connectedPeers = [] →
        sendEmergencyMessage ist mesh text now = (ist, [])) ∧
    (∀ (ist : IndexState) (mesh : MeshState) (text : String) (now : Nat),
        ist.hasMeshRef = true → ist.connectedPeers ≠ [] →
        (∀ c ∈ mesh.connections, c.2 = false) →
        (sendEmergencyMessage ist mesh text now).2 = [] ∧
        (sendEmergencyMessage ist mesh text now).1.messages =
          { id := toString now, message := text,
            urgency := classifyUrgency text, timestamp := now,
            location := ist.userLocation, senderId := ist.peerId,
            route := none } :: ist.messages) := by
  constructor
  · intro ist mesh text now h
    have hlen : ist.connectedPeers.length = 0 := by simp [h]
    unfold sendEmergencyMessage
    rw [if_pos (Or.inr hlen)]
  · intro ist mesh text now href hne hclosed
    have hlen : ¬ ist.connectedPeers.length = 0 := by
      simpa [List.length_eq_zero] using hne
    have hcond : ¬ (¬ ist.hasMeshRef = true ∨ ist.connectedPeers.length = 0) := by
      push_neg
      exact ⟨by simp [href], hlen⟩
    unfold sendEmergencyMessage
    rw [if_neg hcond]
    refine ⟨?_, rfl⟩
    have hfil : mesh.connections.filter (fun c => c.2) = [] := by
      rw [List.filter_eq_nil_iff]
      intro c hc
      simp [hclosed c hc]
    simp [broadcastMessage, hfil]

/-- Witness for the amended C3: rejection with no peers; a listed but
closed connection gives a network no-op with exactly one local delivery. -/
theorem C3_origination_witness :
    sendEmergencyMessage istNoPeers meshClosedB "ok" 7 = (istNoPeers, []) ∧
    (sendEmergencyMessage istWithB meshClosedB "ok" 7).2 = [] :=
  ⟨C3_origination.1 istNoPeers meshClosedB "ok" 7 (by decide),
   (C3_origination.2 istWithB meshClosedB "ok" 7 (by decide) (by decide)
     (by decide)).1⟩

/-- On a duplicate-free key list, records sharing a peer id coincide. -/
theorem presence_eq_of_peerId (l : List PresenceRecord)
    (h : (l.map PresenceRecord.peerId).Nodup) :
    ∀ a ∈ l, ∀ b ∈ l, a.peerId = b.peerId → a = b := by
  induction l with
  | nil => intro a ha; exact absurd ha (List.not_mem_nil a)
  | cons x xs ih =>
    rw [List.map_cons, List.nodup_cons] at h
    intro a ha b hb hab
    rcases List.mem_cons.mp ha with ha' | ha' <;>
      rcases List.mem_cons.mp hb with hb' | hb'
    · rw [ha', hb']
    · exfalso
      apply h.1
      rw [← ha', hab]
      exact List.mem_map_of_mem PresenceRecord.peerId hb'
    · exfalso
      apply h.1
      rw [← hb', ← hab]
      exact List.mem_map_of_mem PresenceRecord.peerId ha'
    · exact ih h.2 a ha' b hb' hab

/-- Counterexample to C7 as stated: a sessionStorage presence record whose
age (70000 ms) exceeds the 60000 ms TTL is still returned by the discovery
scan — a discovery event fires and a connection is attempted for it. -/
theorem C7_counterexample :
    discoverPeersScan 70000 "A" [] []
        [{ peerId := "B", timestamp := 0 }] = ["B"] ∧
    presenceTTLMs <
      70000 - ({ peerId := "B", timestamp := 0 } : PresenceRecord).timestamp := by
  decide

/-- C7 amended: a stale record (age above the TTL) is excluded from the
localStorage scan (given the registry's unique keys) and removed by the
sweep; the sessionStorage scan, however, applies no age filter at all. -/
theorem C7_presence_expiry :
    (∀ (now : Nat) (myPeerId : String) (discovered : List String)
        (entries : List PresenceRecord) (r : PresenceRecord),
        (entries.map PresenceRecord.peerId).Nodup →
        r ∈ entries → presenceTTLMs < now - r.timestamp →
        r.peerId ∉ discoverLocalPeers now myPeerId discovered entries) ∧
    (∀ (now : Nat) (entries : List PresenceRecord) (r : PresenceRecord),
        r ∈ entries → presenceTTLMs < now - r.timestamp →
        r ∉ cleanupOldPeers now entries) ∧
    (∀ (now : Nat) (myPeerId : String) (discovered : List String)
        (entries : List PresenceRecord) (r : PresenceRecord),
        r ∈ entries → r.peerId ≠ "" → r.peerId ≠ myPeerId →
        r.peerId ∉ discovered →
        r.peerId ∈ discoverSessionPeers now myPeerId discovered entries) := by
  refine ⟨?_, ?_, ?_⟩
  · intro now my disc entries r hnd hr hstale hmem
    unfold discoverLocalPeers at hmem
    obtain ⟨r', hr', heq⟩ := List.mem_map.mp hmem
    obtain ⟨hr'mem, hcond⟩ := List.mem_filter.mp hr'
    have hrr : r' = r := presence_eq_of_peerId entries hnd r' hr'mem r hr heq
    subst hrr
    simp only [Bool.and_eq_true, decide_eq_true_eq] at hcond
    omega
  · intro now entries r hr hstale hmem
    obtain ⟨-, hcond⟩ := List.mem_filter.mp hmem
    simp only [Bool.not_eq_true', decide_eq_false_iff_not, not_lt] at hcond
    omega
  · intro now my disc entries r hr h1 h2 h3
    unfold discoverSessionPeers
    refine List.mem_map.mpr ⟨r, List.mem_filter.mpr ⟨hr, ?_⟩, rfl⟩
    simp only [Bool.and_eq_true, bne_iff_ne, Bool.not_eq_true',
      decide_eq_false_iff_not]
    exact ⟨⟨h1, h2⟩, h3⟩

/-- Witness for the amended C7: the stale localStorage record for B is
neither scanned nor kept by the sweep, while a same-aged sessionStorage
record for C is still discovered. -/
theorem C7_presence_expiry_witness :
    ({ peerId := "B", timestamp := 0 } : PresenceRecord).peerId ∉
      discoverLocalPeers 70000 "A" [] [{ peerId := "B", timestamp := 0 }] ∧
    ({ peerId := "B", timestamp := 0 } : PresenceRecord) ∉
      cleanupOldPeers 70000 [{ peerId := "B", timestamp := 0 }] ∧
    ({ peerId := "C", timestamp := 0 } : PresenceRecord).peerId ∈
      discoverSessionPeers 70000 "A" [] [{ peerId := "C", timestamp := 0 }] :=
  ⟨C7_presence_expiry.1 70000 "A" [] [{ peerId := "B", timestamp := 0 }]
     { peerId := "B", timestamp := 0 } (by decide) (by decide) (by decide),
   C7_presence_expiry.2.1 70000 [{ peerId := "B", timestamp := 0 }]
     { peerId := "B", timestamp := 0 } (by decide) (by decide),
   C7_presence_expiry.2.2 70000 "A" [] [{ peerId := "C", timestamp := 0 }]
     { peerId := "C", timestamp := 0 } (by decide) (by decide) (by decide)
     (by decide)⟩

/-! ## Reconnection backoff lemmas -/

theorem lookup_filter_ne (l : List (String × Nat)) (p q : String) (h : q ≠ p) :
    (l.filter (fun c => c.1 != p)).lookup q = l.lookup q := by
  induction l with
  | nil => rfl
  | cons a l ih =>
    by_cases hap : a.1 = p
    · have hqa : (q == a.1) = false := by
        simp [hap, h]
      rw [List.filter_cons]
      simp only [hap, bne_self_eq_false, if_neg]
      cases a with
      | mk a1 a2 =>
        simp only at hap
        subst hap
        rw [List.lookup_cons]
        simp only [hqa, cond_false]
        exact ih
    · rw [List.filter_cons]
      have : (a.1 != p) = true := by simpa using hap
      rw [if_pos this]
      cases a with
      | mk a1 a2 =>
        by_cases hqa : q = a1
        · subst hqa
          simp [List.lookup_cons]
        · have hqa' : (q == a1) = false := by simpa using hqa
          simp only [List.lookup_cons, hqa', cond_false]
          exact ih

theorem getAttempts_setAttempts_ne (s : CMState) (p q : String) (n : Nat)
    (h : p ≠ q) : getAttempts (setAttempts s q n) p = getAttempts s p := by
  unfold getAttempts setAttempts
  dsimp only
  have hpq : (p == q) = false := by simpa using h
  rw [List.lookup_cons]
  simp only [hpq, cond_false]
  rw [lookup_filter_ne _ _ _ h]

theorem countCMConnects_append (p : String) (l l' : List CMAction) :
    countCMConnects p (l ++ l') = countCMConnects p l + countCMConnects p l' :=
  List.countP_append _ _ _

theorem cmRun_cons (connected : List String) (s : CMState) (e : CMEvent)
    (es : List CMEvent) :
    cmRun connected s (e :: es) =
      ((cmRun connected (cmStep connected s e).1 es).1,
       (cmStep connected s e).2 ++
         (cmRun connected (cmStep connected s e).1 es).2) := rfl

/-- Once a peer's attempt counter has reached the cap, no further connect is
scheduled for it over any event sequence that contains no heartbeat tick
(the heartbeat may wholesale-reset the counters). -/
theorem cmRun_capped :
    ∀ (tr : List CMEvent) (connected : List String) (s : CMState) (p : String),
      CMEvent.heartbeatEvt ∉ tr → cmMaxAttempts ≤ getAttempts s p →
      countCMConnects p (cmRun connected s tr).2 = 0 := by
  intro tr
  induction tr with
  | nil => intro _ _ _ _ _; rfl
  | cons e es ih =>
    intro connected s p hhb hcap
    have hhb' : CMEvent.heartbeatEvt ∉ es := fun h => hhb (List.mem_cons_of_mem _ h)
    cases e with
    | heartbeatEvt => exact absurd (List.mem_cons_self _ _) hhb
    | attemptEvt q =>
      rw [cmRun_cons, countCMConnects_append]
      have hstep : cmStep connected s (CMEvent.attemptEvt q) =
          cmAttemptConnection s q := rfl
      by_cases hq : cmMaxAttempts ≤ getAttempts s q
      · have hnone : cmAttemptConnection s q = (s, []) := by
          unfold cmAttemptConnection
          dsimp only
          have hac : attemptConnection (getAttempts s q) = none := by
            unfold attemptConnection
            rw [if_pos hq]
          rw [hac]
        rw [hstep, hnone]
        have := ih connected s p hhb' hcap
        simpa [countCMConnects] using this
      · have hqp : q ≠ p := by
          intro h
          rw [h] at hq
          exact hq hcap
        have hsome : cmAttemptConnection s q =
            (setAttempts s q (getAttempts s q + 1),
             [CMAction.connectAfter q (attemptDelay (getAttempts s q))]) := by
          unfold cmAttemptConnection
          dsimp only
          have hac : attemptConnection (getAttempts s q) =
              some (attemptDelay (getAttempts s q)) := by
            unfold attemptConnection
            rw [if_neg hq]
          rw [hac]
        rw [hstep, hsome]
        dsimp only
        have hone : countCMConnects p
            [CMAction.connectAfter q (attemptDelay (getAttempts s q))] = 0 := by
          simp [countCMConnects, isCMConnect, hqp]
        have hcap' : cmMaxAttempts ≤
            getAttempts (setAttempts s q (getAttempts s q + 1)) p := by
          rw [getAttempts_setAttempts_ne s p q _ (Ne.symm hqp)]
          exact hcap
        have hrest := ih connected (setAttempts s q (getAttempts s q + 1)) p
          hhb' hcap'
        rw [hone, hrest]

/-- The discovery manager start state with B discovered and no attempts. -/
def cmStart : CMState :=
  { myPeerId := "A", discoveredPeers := ["B"], connectionAttempts := [] }

/-- Three discovery-triggered attempt cycles for B. -/
def cmBurst : List CMEvent :=
  [CMEvent.attemptEvt "B", CMEvent.attemptEvt "B", CMEvent.attemptEvt "B"]

/-- Attempt bursts interleaved with heartbeat ticks of a disconnected node. -/
def cmResetTrace : List CMEvent :=
  cmBurst ++ [CMEvent.heartbeatEvt] ++ cmBurst ++ [CMEvent.heartbeatEvt] ++
    [CMEvent.attemptEvt "B"]

/-- Node A whose single open connection to B will be lost. -/
def reconnNode : MeshState :=
  { sampleNode with connections := [("B", true)], messageHistory := [] }

/-- One unexpected-close / retry-timer cycle for B. -/
def reconnCycle : List MeshEvent :=
  [MeshEvent.closeEvt "B", MeshEvent.timerEvt "B"]

/-- Six close/retry cycles. -/
def reconnTrace : List MeshEvent :=
  reconnCycle ++ reconnCycle ++ reconnCycle ++ reconnCycle ++ reconnCycle ++
    reconnCycle

/-- Counterexample to C4 as stated: after three attempt cycles B's counter
sits at the cap (3), yet the full trace — the heartbeat of a disconnected
node resets the counters — schedules seven connects, more than any 3-5
cap permits; and the MeshNetwork reconnection path fires six connect
requests across six close/retry cycles at a constant 5000 ms delay, not at
`base * growthFactor^attempts`. -/
theorem C4_counterexample :
    getAttempts (cmRun [] cmStart cmBurst).1 "B" = cmMaxAttempts ∧
    countCMConnects "B" (cmRun [] cmStart cmResetTrace).2 = 7 ∧
    countConnectReqs "B" (meshRun reconnNode reconnTrace).2 = 6 ∧
    reconnectDelayMs = 5000 := by
  decide

/-- C4 amended: the discovery path's `attemptConnection` delay is exactly
`base * growthFactor^attempts` (base 1000 ms, growth 1.5, cap 3 in the
enhanced manager), delays are non-decreasing, the cap stops scheduling, and
without heartbeat resets no attempt ever fires past the cap; the
MeshNetwork `scheduleReconnection` path instead uses a constant 5000 ms
delay with no attempt counter — it schedules a retry whenever none is
pending and the node is not in the error state. -/
theorem C4_backoff :
    (∀ a : Nat, a < cmMaxAttempts →
        attemptConnection a = some (cmBaseDelay * cmGrowthFactor ^ a)) ∧
    (∀ a b : Nat, a ≤ b → attemptDelay a ≤ attemptDelay b) ∧
    (∀ a : Nat, cmMaxAttempts ≤ a → attemptConnection a = none) ∧
    (∀ (connected : List String) (s : CMState) (p : String)
        (tr : List CMEvent),
        CMEvent.heartbeatEvt ∉ tr → cmMaxAttempts ≤ getAttempts s p →
        countCMConnects p (cmRun connected s tr).2 = 0) ∧
    reconnectDelayMs = 5000 ∧
    (∀ (st : MeshState) (p : String),
        p ∉ st.reconnectTimeouts → st.connectionState ≠ ConnState.error →
        (scheduleReconnection st p).reconnectTimeouts =
          p :: st.reconnectTimeouts) := by
  refine ⟨?_, ?_, ?_, ?_, rfl, ?_⟩
  · intro a h
    unfold attemptConnection
    rw [if_neg (not_le.mpr h)]
    rfl
  · intro a b h
    unfold attemptDelay
    have hg : (1 : ℚ) ≤ cmGrowthFactor := by norm_num [cmGrowthFactor]
    have hb : (0 : ℚ) ≤ cmBaseDelay := by norm_num [cmBaseDelay]
    exact mul_le_mul_of_nonneg_left (pow_le_pow_right₀ hg h) hb
  · intro a h
    unfold attemptConnection
    rw [if_pos h]
  · intro connected s p tr hhb hcap
    exact cmRun_capped tr connected s p hhb hcap
  · intro st p h1 h2
    unfold scheduleReconnection
    dsimp only
    rw [if_neg (not_or.mpr ⟨h1, h2⟩)]

/-- The manager state with B's counter already at the cap. -/
def cmCapped : CMState :=
  { myPeerId := "A", discoveredPeers := ["B"], connectionAttempts := [("B", 3)] }

/-- Witness for the amended C4 at concrete inputs. -/
theorem C4_backoff_witness :
    attemptConnection 1 = some (cmBaseDelay * cmGrowthFactor ^ 1) ∧
    attemptDelay 1 ≤ attemptDelay 2 ∧
    attemptConnection 3 = none ∧
    countCMConnects "B" (cmRun [] cmCapped [CMEvent.attemptEvt "B"]).2 = 0 ∧
    (scheduleReconnection readyNode "B").reconnectTimeouts =
      "B" :: readyNode.reconnectTimeouts :=
  ⟨C4_backoff.1 1 (by decide),
   C4_backoff.2.1 1 2 (by decide),
   C4_backoff.2.2.1 3 (by decide),
   C4_backoff.2.2.2.1 [] cmCapped "B" [CMEvent.attemptEvt "B"]
     (by decide) (by decide),
   C4_backoff.2.2.2.2.2 readyNode "B" (by decide) (by decide)⟩

/-! ## Retry-timer uniqueness lemmas -/

theorem scheduleReconnection_nodup (st : MeshState) (p : String)
    (h : st.reconnectTimeouts.Nodup) :
    (scheduleReconnection st p).reconnectTimeouts.Nodup := by
  unfold scheduleReconnection
  dsimp only
  split
  · exact h
  · next hc =>
    push_neg at hc
    exact List.nodup_cons.mpr ⟨hc.1, h⟩

theorem onData_reconnectTimeouts (st : MeshState) (f : String) (d : WireData) :
    (onData st f d).1.reconnectTimeouts = st.reconnectTimeouts := by
  unfold onData
  cases d with
  | nullDatum => rfl
  | primitive s => rfl
  | object m =>
    dsimp only
    split
    · rfl
    · split
      · rfl
      · rfl

/-- Every event handler preserves duplicate-freedom of the pending retry
timers: the scheduling guard never creates a second timer for a peer. -/
theorem meshStep_timeouts_nodup (st : MeshState) (e : MeshEvent)
    (h : st.reconnectTimeouts.Nodup) :
    (meshStep st e).1.reconnectTimeouts.Nodup := by
  cases e with
  | openEvt p =>
    show ((updatePeersList _).1.reconnectTimeouts.filter
      (fun q => q != p)).Nodup
    rw [updatePeersList_reconnectTimeouts]
    exact h.filter _
  | dataEvt f d =>
    show (onData st f d).1.reconnectTimeouts.Nodup
    rw [onData_reconnectTimeouts]
    exact h
  | closeEvt p =>
    show (scheduleReconnection (updatePeersList _).1 p).reconnectTimeouts.Nodup
    apply scheduleReconnection_nodup
    rw [updatePeersList_reconnectTimeouts]
    exact h
  | errorEvt p =>
    show (scheduleReconnection (updatePeersList _).1 p).reconnectTimeouts.Nodup
    apply scheduleReconnection_nodup
    rw [updatePeersList_reconnectTimeouts]
    exact h
  | timerEvt p =>
    show (timerFire st p).1.reconnectTimeouts.Nodup
    unfold timerFire
    split
    · dsimp only
      exact h.filter _
    · exact h

theorem sysStep_timeouts_nodup (s : SysState) (e : SysEvent)
    (h : s.mesh.reconnectTimeouts.Nodup) :
    (sysStep s e).1.mesh.reconnectTimeouts.Nodup := by
  cases e with
  | meshEvt e => exact meshStep_timeouts_nodup s.mesh e h
  | cmEvt e => exact h

theorem sysRun_timeouts_nodup :
    ∀ (tr : List SysEvent) (s : SysState),
      s.mesh.reconnectTimeouts.Nodup →
      (sysRun s tr).1.mesh.reconnectTimeouts.Nodup := by
  intro tr
  induction tr with
  | nil => intro s h; exact h
  | cons e es ih =>
    intro s h
    exact ih (sysStep s e).1 (sysStep_timeouts_nodup s e h)

/-- A node with a pending retry timer for B and B's attempt counter at 2. -/
def sysOpenCase : SysState :=
  { mesh := { readyNode with reconnectTimeouts := ["B"] },
    cm := { myPeerId := "A", discoveredPeers := ["B"],
            connectionAttempts := [("B", 2)] } }

/-- Counterexample to C5 as stated: a successful OPEN transition for B
cancels B's retry timer but leaves B's attempt counter at 2 — nothing in
the code resets a per-peer attempt counter to zero on OPEN (a following
heartbeat of the now-connected node does not reset it either). -/
theorem C5_counterexample :
    getAttempts sysOpenCase.cm "B" = 2 ∧
    (sysStep sysOpenCase
      (SysEvent.meshEvt (MeshEvent.openEvt "B"))).1.mesh.reconnectTimeouts = [] ∧
    getAttempts (sysRun sysOpenCase
      [SysEvent.meshEvt (MeshEvent.openEvt "B"),
       SysEvent.cmEvt CMEvent.heartbeatEvt]).1.cm "B" = 2 := by
  decide

/-- C5 amended: every reachable state keeps at most one outstanding retry
timer per peer (the scheduling guard makes duplicates impossible), and a
successful OPEN transition cancels and clears that peer's timer; the
per-peer attempt counter, however, is untouched by the OPEN transition. -/
theorem C5_timer_uniqueness :
    (∀ (s : SysState) (tr : List SysEvent),
        s.mesh.reconnectTimeouts.Nodup →
        (sysRun s tr).1.mesh.reconnectTimeouts.Nodup) ∧
    (∀ (st : MeshState) (p : String),
        p ∉ (onOpen st p).1.reconnectTimeouts) ∧
    (∀ (s : SysState) (p : String),
        (sysStep s (SysEvent.meshEvt (MeshEvent.openEvt p))).1.cm = s.cm) := by
  refine ⟨fun s tr h => sysRun_timeouts_nodup tr s h, ?_, fun s p => rfl⟩
  intro st p
  show p ∉ (updatePeersList _).1.reconnectTimeouts.filter (fun q => q != p)
  simp [List.mem_filter]

/-- Witness for the amended C5: running two close events for the same peer
leaves a single timer entry; an open transition clears it. -/
theorem C5_timer_uniqueness_witness :
    (sysRun sysOpenCase
      [SysEvent.meshEvt (MeshEvent.closeEvt "B"),
       SysEvent.meshEvt (MeshEvent.closeEvt "B")]).1.mesh.reconnectTimeouts.Nodup ∧
    "B" ∉ (onOpen readyNode "B").1.reconnectTimeouts :=
  ⟨C5_timer_uniqueness.1 sysOpenCase
     [SysEvent.meshEvt (MeshEvent.closeEvt "B"),
      SysEvent.meshEvt (MeshEvent.closeEvt "B")] (by decide),
   C5_timer_uniqueness.2.1 readyNode "B"⟩

end CrisisMesh
